import Mathlib

/-!
Shallow embedding of the lottery-predictor data pipeline
(src/utils/validation.ts, src/utils/constants.ts, the data-manager
statistics module, and src/lib/dataImport.ts), together with proofs of
the specified properties.

Modelling conventions:
* JavaScript numbers carried by candidate records are modelled as `ℚ`
  (the validator checks `Number.isInteger`, which becomes `q.den = 1`).
* A JavaScript `Date` value is modelled by `Option Int`: `some t` is a
  date whose timestamp (milliseconds) is `t`, `none` is an Invalid Date
  (`NaN` timestamp).  `new Date(x)` applied to a string or a date is
  modelled by the resulting `Option Int` directly, so record fields hold
  the already-coerced value.
* `Array.prototype.sort` (stable since ES2019) is modelled by a stable
  insertion sort `jsSortBy`.
* The current time (`new Date()` inside the validator) is an explicit
  parameter `now`.
-/

/-- Stable insertion of `x` into `l`: `x` is placed before the first
element `y` with `le x y = true`.  Since `x` always comes from earlier in
the original array than the elements of `l`, ties keep original order,
matching the stable JavaScript sort. -/
def jsInsert (le : α → α → Bool) (x : α) : List α → List α
  | [] => [x]
  | y :: ys => if le x y then x :: y :: ys else y :: jsInsert le x ys

/-- Stable sort modelling `Array.prototype.sort(cmp)`, where
`le x y = true` means `cmp(x, y) <= 0`. -/
def jsSortBy (le : α → α → Bool) : List α → List α
  | [] => []
  | x :: xs => jsInsert le x (jsSortBy le xs)

/-- `[...numbers].sort((a, b) => a - b)`: ascending numeric sort. -/
def jsSortNums (l : List ℚ) : List ℚ :=
  jsSortBy (fun a b => a ≤ b) l

/-- `Math.round(q * 100) / 100` — round to 2 decimal places.
`Math.round` rounds half-way cases toward positive infinity, which is
exactly Mathlib `round`. -/
def round2 (q : ℚ) : ℚ := (round (q * 100) : ℤ) / 100

/-- `x.toFixed(1)` rendered back as a rational: round to 1 decimal. -/
def toFixed1 (q : ℚ) : ℚ := (round (q * 10) : ℤ) / 10

/-- JavaScript `String.prototype.trim()`: remove leading and trailing
whitespace. -/
def jsTrim (s : String) : String :=
  ⟨(s.data.dropWhile Char.isWhitespace).rdropWhile Char.isWhitespace⟩

/-- One entry of `LOTTERY_GAMES` in src/utils/constants.ts. -/
structure GameConfig where
  name : String
  description : String
  maxNumber : Nat
  numberCount : Nat
  drawDays : List String
deriving Repr, DecidableEq

/-- The five Philippine lottery game configurations
(src/utils/constants.ts). -/
def LOTTERY_GAMES : List GameConfig :=
  [ ⟨"6/42", "Lotto 6/42", 42, 6, ["Tuesday", "Thursday", "Saturday"]⟩,
    ⟨"6/45", "Mega Lotto 6/45", 45, 6, ["Monday", "Wednesday", "Friday"]⟩,
    ⟨"6/49", "Super Lotto 6/49", 49, 6, ["Tuesday", "Thursday", "Sunday"]⟩,
    ⟨"6/55", "Grand Lotto 6/55", 55, 6, ["Monday", "Wednesday", "Saturday"]⟩,
    ⟨"6/58", "Ultra Lotto 6/58", 58, 6, ["Tuesday", "Friday", "Sunday"]⟩ ]

/-- `LOTTERY_GAMES[name]` — the object-key lookup used by the validator. -/
def lookupGame (name : String) : Option GameConfig :=
  LOTTERY_GAMES.find? (fun g => g.name == name)

/-- `LotteryResultData` (src/utils/validation.ts).  `drawDate` already
holds the `Option Int` timestamp `new Date(data.drawDate)` would
produce. -/
structure LotteryResultData where
  gameName : String
  drawDate : Option Int
  numbers : List ℚ
  jackpot : Option ℚ
deriving Repr, DecidableEq

/-- `ValidationResult` (src/utils/validation.ts). -/
structure ValidationResult where
  isValid : Bool
  errors : List String
  warnings : List String
deriving Repr, DecidableEq

/-- Timestamp of `new Date('1995-01-01')` in milliseconds. -/
def epoch1995 : Int := 788918400000

/-- Error text for a missing / non-string game name. -/
def gameNameRequiredErr : String := "Game name is required and must be a string"

/-- Error text for an unknown game name. -/
def invalidGameErr (name : String) : String :=
  "Invalid game name: " ++ name ++ ". Must be one of: " ++
    String.intercalate ", " (LOTTERY_GAMES.map (·.name))

/-- Error text for an unparsable draw date. -/
def dateFormatErr : String := "Invalid draw date format"

/-- Error text for a wrong count of numbers. -/
def countErr (expected got : Nat) : String :=
  "Expected " ++ toString expected ++ " numbers, got " ++ toString got

/-- Error text for a non-integer element. -/
def notIntErr (index : Nat) (num : ℚ) : String :=
  "Number at index " ++ toString index ++ " is not an integer: " ++ toString num

/-- Error text for an out-of-range element. -/
def rangeErr (num : ℚ) (index : Nat) (maxNumber : Nat) : String :=
  "Number " ++ toString num ++ " at index " ++ toString index ++
    " is out of range (1-" ++ toString maxNumber ++ ")"

/-- Error text for duplicate numbers. -/
def dupNumbersErr : String := "Duplicate numbers found in the array"

/-- Error text for a negative jackpot. -/
def jackpotErr : String := "Jackpot must be a positive number"

/-- Warning texts. -/
def futureWarn : String := "Draw date is in the future"

/-- Warning for a pre-1995 draw date. -/
def preHistoryWarn : String := "Draw date is before Philippine lottery history (pre-1995)"

/-- Warning for unsorted numbers. -/
def unsortedWarn : String := "Numbers are not in ascending order"

/-- The per-element number checks: `Number.isInteger` first, else the
range check, one error per offending element (validation.ts lines 62-69). -/
def numberElemErrs (cfg : GameConfig) (numbers : List ℚ) : List String :=
  (numbers.enum).flatMap fun p =>
    if p.2.den ≠ 1 then [notIntErr p.1 p.2]
    else if p.2 < 1 ∨ p.2 > (cfg.maxNumber : ℚ) then [rangeErr p.2 p.1 cfg.maxNumber]
    else []

/-- The game-name errors of the validator: the falsy/non-string check
(`!data.gameName` is true exactly for the empty string here) and the
unknown-game check. -/
def gameErrsOf (data : LotteryResultData) : List String :=
  if data.gameName = "" then [gameNameRequiredErr]
  else if (lookupGame data.gameName).isNone then [invalidGameErr data.gameName]
  else []

/-- The draw-date error of the validator (the `isNaN` branch). -/
def dateErrsOf (data : LotteryResultData) : List String :=
  if data.drawDate.isNone then [dateFormatErr] else []

/-- The draw-date warnings of the validator. -/
def dateWarnsOf (now : Int) (data : LotteryResultData) : List String :=
  match data.drawDate with
  | none => []
  | some t =>
      (if t > now then [futureWarn] else []) ++
      (if t < epoch1995 then [preHistoryWarn] else [])

/-- The numbers-array errors of the validator: the count check, the
per-element checks and the duplicate check, all guarded by the lookup of
the game configuration. -/
def numberErrsOf (data : LotteryResultData) : List String :=
  match lookupGame data.gameName with
  | none => []
  | some cfg =>
      (if data.numbers.length ≠ cfg.numberCount then
        [countErr cfg.numberCount data.numbers.length] else []) ++
      numberElemErrs cfg data.numbers ++
      (if data.numbers.dedup.length ≠ data.numbers.length then [dupNumbersErr] else [])

/-- The sort-order warning of the validator. -/
def sortWarnsOf (data : LotteryResultData) : List String :=
  match lookupGame data.gameName with
  | none => []
  | some _ =>
      if data.numbers ≠ jsSortNums data.numbers then [unsortedWarn] else []

/-- The jackpot error of the validator. -/
def jackpotErrsOf (data : LotteryResultData) : List String :=
  match data.jackpot with
  | none => []
  | some j => if j < 0 then [jackpotErr] else []

/-- `validateLotteryResult` (src/utils/validation.ts lines 19-97).
`now` models the `new Date()` calls.  The `numbers` field is always an
array in the model, so the `Array.isArray` failure branch does not
arise; the `try` around date construction cannot throw for our date
model, so only the `isNaN` branch produces the date error.  Errors are
accumulated in the push order of the source. -/
def validateLotteryResult (now : Int) (data : LotteryResultData) : ValidationResult :=
  let errors :=
    gameErrsOf data ++ dateErrsOf data ++ numberErrsOf data ++ jackpotErrsOf data
  { isValid := errors.isEmpty
    errors := errors
    warnings := dateWarnsOf now data ++ sortWarnsOf data }

/-- `cleanLotteryResult` (src/utils/validation.ts lines 102-109).  Note
the JavaScript truthiness test `data.jackpot ? ... : undefined`: a
jackpot equal to `0` is falsy, so it becomes `undefined`. -/
def cleanLotteryResult (data : LotteryResultData) : LotteryResultData :=
  { gameName := jsTrim data.gameName
    drawDate := data.drawDate
    numbers := jsSortNums data.numbers
    jackpot :=
      match data.jackpot with
      | some j => if j ≠ 0 then some (round2 j) else none
      | none => none }

/-- The loop body of `validateLotteryResults`: partition the records
into cleaned valid ones and invalid ones (paired with their validation),
accumulating the warning count of the valid records. -/
def validateBatchGo (now : Int) :
    List LotteryResultData →
      List LotteryResultData × List (LotteryResultData × ValidationResult) × Nat
  | [] => ([], [], 0)
  | r :: rs =>
      let v := validateLotteryResult now r
      let rest := validateBatchGo now rs
      if v.isValid then
        (cleanLotteryResult r :: rest.1, rest.2.1, v.warnings.length + rest.2.2)
      else
        (rest.1, (r, v) :: rest.2.1, rest.2.2)

/-- Return value of `validateLotteryResults` (src/utils/validation.ts
lines 114-152): valid records are already cleaned. -/
structure BatchValidation where
  validResults : List LotteryResultData
  invalidResults : List (LotteryResultData × ValidationResult)
  total : Nat
  valid : Nat
  invalid : Nat
  warningCount : Nat
deriving Repr, DecidableEq

/-- `validateLotteryResults` (src/utils/validation.ts). -/
def validateLotteryResults (now : Int) (results : List LotteryResultData) :
    BatchValidation :=
  let p := validateBatchGo now results
  { validResults := p.1
    invalidResults := p.2.1
    total := results.length
    valid := p.1.length
    invalid := p.2.1.length
    warningCount := p.2.2 }

/-- `new Date(t).toDateString()`: a string naming only the calendar day
of the timestamp.  The JavaScript text is a fixed-format day string
rendered in the local time zone; the model renders the UTC day index.
An Invalid Date renders as the literal JavaScript text. -/
def jsToDateString (d : Option Int) : String :=
  match d with
  | none => "Invalid Date"
  | some t => "Day " ++ toString (t.fdiv 86400000)

/-- The composite duplicate key built at src/utils/validation.ts line
160: `gameName`, a hyphen, then `toDateString()` of the draw date. -/
def dupKey (r : LotteryResultData) : String :=
  r.gameName ++ "-" ++ jsToDateString r.drawDate

/-- Append `r` to the group keyed `key`, creating the group at the end
if absent — the JavaScript `Map` keeps insertion order. -/
def addToGroups (key : String) (r : LotteryResultData) :
    List (String × List LotteryResultData) → List (String × List LotteryResultData)
  | [] => [(key, [r])]
  | (k, g) :: rest =>
      if k = key then (k, g ++ [r]) :: rest else (k, g) :: addToGroups key r rest

/-- The insertion-ordered `seen` map of `detectDuplicates`. -/
def dupGroups (results : List LotteryResultData) :
    List (String × List LotteryResultData) :=
  results.foldl (fun gs r => addToGroups (dupKey r) r gs) []

/-- `detectDuplicates` (src/utils/validation.ts lines 154-174): the
groups of size at least two, in key insertion order. -/
def detectDuplicates (results : List LotteryResultData) :
    List (List LotteryResultData) :=
  ((dupGroups results).filter (fun p => p.2.length > 1)).map (·.2)

/-! ## The persistent store and the batch importer (src/lib/dataImport.ts)

The Prisma store is an external collaborator; it is modelled by an
explicit state: the persisted games, the persisted result rows (unique
on `(gameId, drawDate)`), and a set of keys on which `create` throws,
modelling per-record persistence failures. -/

/-- A persisted `lotteryGame` row. -/
structure LotteryGameRow where
  id : Nat
  name : String
deriving Repr, DecidableEq

/-- A persisted `lotteryResult` row. -/
structure LotteryResultRow where
  gameId : Nat
  drawDate : Option Int
  numbers : List ℚ
  jackpot : Option ℚ
deriving Repr, DecidableEq

/-- The store state. -/
structure Db where
  games : List LotteryGameRow
  results : List LotteryResultRow
  failingCreates : List (Nat × Option Int)
deriving Repr, DecidableEq

/-- `prisma.lotteryGame.findUnique({ where: { name } })`. -/
def Db.findGame (db : Db) (name : String) : Option LotteryGameRow :=
  db.games.find? (fun g => g.name == name)

/-- `prisma.lotteryResult.findUnique` on the `gameId_drawDate` key. -/
def Db.findResult (db : Db) (gameId : Nat) (d : Option Int) : Option LotteryResultRow :=
  db.results.find? (fun r => r.gameId == gameId && r.drawDate == d)

/-- `prisma.lotteryResult.create`: throws on a modelled store failure or
on a violation of the `(gameId, drawDate)` uniqueness constraint. -/
def Db.create (db : Db) (row : LotteryResultRow) : Except String Db :=
  if (row.gameId, row.drawDate) ∈ db.failingCreates then
    Except.error "Unknown error"
  else if (db.findResult row.gameId row.drawDate).isSome then
    Except.error "Unique constraint failed on the fields: (gameId, drawDate)"
  else
    Except.ok { db with results := db.results ++ [row] }

/-- `ImportOptions` (src/lib/dataImport.ts). -/
structure ImportOptions where
  skipDuplicates : Bool
  validateData : Bool
  batchSize : Nat
deriving Repr, DecidableEq

/-- `DEFAULT_OPTIONS` (src/lib/dataImport.ts). -/
def DEFAULT_OPTIONS : ImportOptions :=
  { skipDuplicates := true, validateData := true, batchSize := 100 }

/-- The date rendering of `` `... on ${result.drawDate}` `` inside the
per-record failure message. -/
def jsDateDisplay (d : Option Int) : String :=
  match d with
  | none => "Invalid Date"
  | some t => "Date " ++ toString t

/-- Error text for a game missing from the store. -/
def gameNotFoundErr (name : String) : String := "Game not found: " ++ name

/-- Error text for a per-record persistence failure. -/
def failedImportErr (r : LotteryResultData) (msg : String) : String :=
  "Failed to import result for " ++ r.gameName ++ " on " ++
    jsDateDisplay r.drawDate ++ ": " ++ msg

/-- Summary error line for invalid candidates. -/
def invalidSummaryErr (n : Nat) : String := toString n ++ " invalid results found"

/-- Outcome of one batch (plus the final store state, threaded through). -/
structure BatchOutcome where
  imported : Nat
  skipped : Nat
  errors : List String
  db : Db
deriving Repr, DecidableEq

/-- `result.jackpot || null` in the `create` call: a zero jackpot is
falsy, hence stored as `null`. -/
def jackpotOrNull (j : Option ℚ) : Option ℚ :=
  match j with
  | some v => if v ≠ 0 then some v else none
  | none => none

/-- `processBatch` (src/lib/dataImport.ts lines 113-169): sequential
per-record loop.  Each record either resolves its game, is skipped as a
persisted duplicate, is created, or contributes one error; a failure
never aborts the batch. -/
def processBatch (opts : ImportOptions) :
    List LotteryResultData → Db → BatchOutcome
  | [], db => ⟨0, 0, [], db⟩
  | r :: rs, db =>
      match db.findGame r.gameName with
      | none =>
          let rest := processBatch opts rs db
          ⟨rest.imported, rest.skipped, gameNotFoundErr r.gameName :: rest.errors, rest.db⟩
      | some game =>
          if opts.skipDuplicates && (db.findResult game.id r.drawDate).isSome then
            let rest := processBatch opts rs db
            ⟨rest.imported, rest.skipped + 1, rest.errors, rest.db⟩
          else
            match db.create ⟨game.id, r.drawDate, r.numbers, jackpotOrNull r.jackpot⟩ with
            | Except.ok db1 =>
                let rest := processBatch opts rs db1
                ⟨rest.imported + 1, rest.skipped, rest.errors, rest.db⟩
            | Except.error msg =>
                let rest := processBatch opts rs db
                ⟨rest.imported, rest.skipped, failedImportErr r msg :: rest.errors, rest.db⟩

/-- One step of the chunking loop
`for (i = 0; i < n; i += batchSize) slice(i, i + batchSize)`, with a
fuel counter bounding the number of iterations (each iteration of the
JavaScript loop consumes at least one element when `batchSize ≥ 1`, so
fuel equal to the list length suffices; fuel 0 with a non-empty list is
unreachable then). -/
def chunksOfGo (bs : Nat) : Nat → List α → List (List α)
  | _, [] => []
  | 0, _ :: _ => []
  | fuel + 1, x :: xs => (x :: xs).take bs :: chunksOfGo bs fuel ((x :: xs).drop bs)

/-- The chunking of `processBatch` calls in `importLotteryResults`:
consecutive `slice(i, i + batchSize)` windows.  With `batchSize = 0` the
JavaScript loop would never terminate; no caller passes 0 — the default
is 100. -/
def chunksOf (bs : Nat) (l : List α) : List (List α) :=
  chunksOfGo bs l.length l

/-- Sequential processing of the chunks, threading the store state and
accumulating counts and errors. -/
def processChunks (opts : ImportOptions) :
    List (List LotteryResultData) → Db → BatchOutcome
  | [], db => ⟨0, 0, [], db⟩
  | c :: cs, db =>
      let b := processBatch opts c db
      let rest := processChunks opts cs b.db
      ⟨b.imported + rest.imported, b.skipped + rest.skipped,
        b.errors ++ rest.errors, rest.db⟩

/-- `details` of an `ImportResult`. -/
structure ImportDetails where
  total : Nat
  valid : Nat
  invalid : Nat
  duplicates : Nat
deriving Repr, DecidableEq

/-- `ImportResult` (src/lib/dataImport.ts). -/
structure ImportResult where
  success : Bool
  imported : Nat
  skipped : Nat
  errors : List String
  details : ImportDetails
deriving Repr, DecidableEq

/-- `importLotteryResults` (src/lib/dataImport.ts lines 41-108), on the
path that completes without an escaping exception (the surrounding
`try/catch` never fires in the pure model, since every per-record store
failure is already caught inside `processBatch`).  Returns the result
together with the final store state. -/
def importLotteryResults (now : Int) (results : List LotteryResultData)
    (opts : ImportOptions) (db : Db) : ImportResult × Db :=
  let validation := validateLotteryResults now results
  let validResults := if opts.validateData then validation.validResults else results
  let summaryErrs :=
    if opts.validateData && validation.invalidResults.length > 0 then
      [invalidSummaryErr validation.invalidResults.length]
    else []
  let out := processChunks opts (chunksOf opts.batchSize validResults) db
  let errors := summaryErrs ++ out.errors
  ({ success := errors.isEmpty
     imported := out.imported
     skipped := out.skipped
     errors := errors
     details :=
       { total := results.length
         valid := validResults.length
         invalid := results.length - validResults.length
         duplicates := out.skipped } }, out.db)

/-! ## Statistics engine (data-manager module) -/

/-- `numberFrequency[n]`: occurrences of `n` across all draws. -/
def numberFrequency (results : List (List ℕ)) (n : ℕ) : ℕ :=
  (results.flatMap id).count n

/-- `Object.entries(numberFrequency)` key order: the distinct drawn
numbers in ascending numeric order (JavaScript enumerates integer-like
object keys ascending, regardless of insertion order). -/
def freqKeys (results : List (List ℕ)) : List ℕ :=
  jsSortBy (fun a b => a ≤ b) (results.flatMap id).dedup

/-- `.sort(([,a],[,b]) => b - a)`: the distinct numbers sorted by
descending frequency; the stable sort keeps ties in ascending numeric
order. -/
def sortedNumbers (results : List (List ℕ)) : List ℕ :=
  jsSortBy (fun a b => numberFrequency results b ≤ numberFrequency results a)
    (freqKeys results)

/-- The slice of `calculateGameStatistics` (data-manager module) that
the claims are about: draw count, hot numbers (`slice(0, 10)`) and cold
numbers (`slice(-10).reverse()`).  Each element of `results` is the
`numbers` array of one persisted draw; the date and jackpot aggregates
of the source function touch fields no claim mentions and are omitted. -/
structure GameStatisticsCore where
  totalDraws : Nat
  hotNumbers : List ℕ
  coldNumbers : List ℕ
deriving Repr, DecidableEq

/-- Hot/cold computation of `calculateGameStatistics`: on an empty
history every field is zero/empty. -/
def calculateGameStatistics (results : List (List ℕ)) : GameStatisticsCore :=
  if results.isEmpty then ⟨0, [], []⟩
  else
    let s := sortedNumbers results
    ⟨results.length, s.take 10, (s.drop (s.length - 10)).reverse⟩

/-- Adjacent-by-one pairs inside one draw, counted over the sorted
numbers (`findConsecutivePatterns` inner loop). -/
def countAdjPairs (nums : List ℕ) : ℕ :=
  let sorted := jsSortBy (fun a b => a ≤ b) nums
  (sorted.zip sorted.tail).countP (fun p => p.2 == p.1 + 1)

/-- Return value of `findConsecutivePatterns`.  `percentage` models the
numeric value rendered by `toFixed(1)`. -/
structure ConsecutivePatterns where
  frequency : Nat
  percentage : ℚ
deriving Repr, DecidableEq

/-- `findConsecutivePatterns` (data-manager module): note the hard-coded
divisor `results.length * 5`. -/
def findConsecutivePatterns (results : List (List ℕ)) : ConsecutivePatterns :=
  let consecutiveCount := (results.map countAdjPairs).sum
  ⟨consecutiveCount,
    if results.length > 0 then
      toFixed1 ((consecutiveCount : ℚ) / ((results.length : ℚ) * 5) * 100)
    else 0⟩

/-- The consecutive-number rate as the SPEC describes it (for the
refinement comparison of claim C5): adjacent-by-one pairs summed over
the window, as a percentage of `window_size × numberCount`, rendered at
one decimal like the code. -/
def specConsecutivePercentage (g : GameConfig) (results : List (List ℕ)) : ℚ :=
  toFixed1 (((results.map countAdjPairs).sum : ℚ) /
    ((results.length : ℚ) * (g.numberCount : ℚ)) * 100)

/-! ## Generic properties of the stable sort model -/

theorem jsInsert_perm (le : α → α → Bool) (x : α) (l : List α) :
    (jsInsert le x l).Perm (x :: l) := by
  induction l with
  | nil => simp [jsInsert]
  | cons y ys ih =>
      simp only [jsInsert]
      split
      · exact List.Perm.refl _
      · exact List.Perm.trans (List.Perm.cons y ih) (List.Perm.swap x y ys)

theorem jsSortBy_perm (le : α → α → Bool) (l : List α) :
    (jsSortBy le l).Perm l := by
  induction l with
  | nil => simp [jsSortBy]
  | cons x xs ih =>
      exact List.Perm.trans (jsInsert_perm le x (jsSortBy le xs)) (List.Perm.cons x ih)

theorem jsInsert_pairwise {R : α → α → Prop} [IsTrans α R] {le : α → α → Bool}
    (hR : ∀ a b, le a b = true → R a b) (htot : ∀ a b, le a b = false → R b a)
    {l : List α} (hl : l.Pairwise R) (x : α) : (jsInsert le x l).Pairwise R := by
  induction l with
  | nil => simp [jsInsert]
  | cons y ys ih =>
      rcases List.pairwise_cons.mp hl with ⟨hy, hys⟩
      simp only [jsInsert]
      cases hxy : le x y with
      | true =>
          refine List.pairwise_cons.mpr ⟨?_, hl⟩
          intro z hz
          rcases List.mem_cons.mp hz with rfl | hzys
          · exact hR _ _ hxy
          · exact Trans.trans (hR _ _ hxy) (hy z hzys)
      | false =>
          refine List.pairwise_cons.mpr ⟨?_, ih hys⟩
          intro z hz
          rcases List.mem_cons.mp ((jsInsert_perm le x ys).mem_iff.mp hz) with rfl | hzys
          · exact htot _ _ hxy
          · exact hy z hzys

theorem jsSortBy_pairwise {R : α → α → Prop} [IsTrans α R] {le : α → α → Bool}
    (hR : ∀ a b, le a b = true → R a b) (htot : ∀ a b, le a b = false → R b a)
    (l : List α) : (jsSortBy le l).Pairwise R := by
  induction l with
  | nil => simp [jsSortBy]
  | cons x xs ih => exact jsInsert_pairwise hR htot ih x

theorem jsSortBy_eq_self {le : α → α → Bool} {l : List α}
    (hl : l.Pairwise (fun a b => le a b = true)) : jsSortBy le l = l := by
  induction l with
  | nil => rfl
  | cons x xs ih =>
      rcases List.pairwise_cons.mp hl with ⟨hx, hxs⟩
      simp only [jsSortBy, ih hxs]
      cases xs with
      | nil => rfl
      | cons y ys => simp [jsInsert, hx y (List.mem_cons_self y ys)]

/-! ## Facts about the validator -/

theorem validate_errors_eq (now : Int) (data : LotteryResultData) :
    (validateLotteryResult now data).errors =
      gameErrsOf data ++ dateErrsOf data ++ numberErrsOf data ++ jackpotErrsOf data := rfl

theorem validate_isValid_eq (now : Int) (data : LotteryResultData) :
    (validateLotteryResult now data).isValid =
      (validateLotteryResult now data).errors.isEmpty := rfl

theorem validate_isValid_iff (now : Int) (data : LotteryResultData) :
    (validateLotteryResult now data).isValid = true ↔
      (validateLotteryResult now data).errors = [] := by
  rw [validate_isValid_eq, List.isEmpty_iff]

theorem components_nil_of_valid {now : Int} {data : LotteryResultData}
    (hv : (validateLotteryResult now data).isValid = true) :
    gameErrsOf data = [] ∧ dateErrsOf data = [] ∧
      numberErrsOf data = [] ∧ jackpotErrsOf data = [] := by
  have h := (validate_isValid_iff now data).mp hv
  rw [validate_errors_eq] at h
  simpa [List.append_eq_nil] using h

theorem numbers_facts {data : LotteryResultData} {cfg : GameConfig}
    (hcfg : lookupGame data.gameName = some cfg)
    (h : numberErrsOf data = []) :
    data.numbers.length = cfg.numberCount ∧
      (∀ q ∈ data.numbers, q.den = 1 ∧ 1 ≤ q ∧ q ≤ (cfg.maxNumber : ℚ)) ∧
      data.numbers.Nodup := by
  unfold numberErrsOf at h
  rw [hcfg] at h
  rw [List.append_eq_nil, List.append_eq_nil] at h
  obtain ⟨⟨h1, h2⟩, h3⟩ := h
  refine ⟨?_, ?_, ?_⟩
  · by_contra hne
    simp [hne] at h1
  · intro q hq
    obtain ⟨i, hi, rfl⟩ := List.mem_iff_getElem.mp hq
    have hmem : (i, data.numbers[i]) ∈ data.numbers.enum := by
      rw [List.mk_mem_enum_iff_getElem?, List.getElem?_eq_getElem hi]
    have helem := List.flatMap_eq_nil_iff.mp h2 _ hmem
    have hok : ¬(data.numbers[i].den ≠ 1) ∧
        ¬(data.numbers[i] < 1 ∨ data.numbers[i] > (cfg.maxNumber : ℚ)) := by
      by_cases hp : data.numbers[i].den ≠ 1
      · simp [hp] at helem
      · by_cases hq : data.numbers[i] < 1 ∨ data.numbers[i] > (cfg.maxNumber : ℚ)
        · simp [hp, hq] at helem
        · exact ⟨hp, hq⟩
    obtain ⟨hden, hrange⟩ := hok
    push_neg at hden hrange
    exact ⟨hden, hrange.1, hrange.2⟩
  · by_contra hnd
    have hlen : data.numbers.dedup.length ≠ data.numbers.length := by
      intro heq
      exact hnd (List.dedup_eq_self.mp
        (List.Sublist.eq_of_length (List.dedup_sublist _) heq))
    simp [hlen] at h3

theorem jsSortNums_perm (l : List ℚ) : (jsSortNums l).Perm l :=
  jsSortBy_perm _ l

theorem jsSortNums_pairwise (l : List ℚ) : (jsSortNums l).Pairwise (· ≤ ·) := by
  refine jsSortBy_pairwise ?_ ?_ l
  · intro a b h
    exact of_decide_eq_true h
  · intro a b h
    exact le_of_lt (not_le.mp (of_decide_eq_false h))

/-- C3: for every candidate record of game `g` that the validator
accepts, the cleaned record has `g.numberCount` numbers, all in
`[1, g.maxNumber]`, pairwise distinct and sorted in ascending order. -/
theorem clean_invariants_of_valid (now : Int) (data : LotteryResultData)
    (cfg : GameConfig) (hcfg : lookupGame data.gameName = some cfg)
    (hv : (validateLotteryResult now data).isValid = true) :
    (cleanLotteryResult data).numbers.length = cfg.numberCount ∧
      (∀ q ∈ (cleanLotteryResult data).numbers, 1 ≤ q ∧ q ≤ (cfg.maxNumber : ℚ)) ∧
      (cleanLotteryResult data).numbers.Nodup ∧
      (cleanLotteryResult data).numbers.Pairwise (· ≤ ·) := by
  obtain ⟨-, -, hnum, -⟩ := components_nil_of_valid hv
  obtain ⟨hlen, helem, hnd⟩ := numbers_facts hcfg hnum
  have hperm := jsSortNums_perm data.numbers
  have hcn : (cleanLotteryResult data).numbers = jsSortNums data.numbers := rfl
  refine ⟨?_, ?_, ?_, ?_⟩
  · rw [hcn, hperm.length_eq, hlen]
  · intro q hq
    rw [hcn] at hq
    have := helem q (hperm.mem_iff.mp hq)
    exact ⟨this.2.1, this.2.2⟩
  · rw [hcn]
    exact hperm.nodup_iff.mpr hnd
  · rw [hcn]
    exact jsSortNums_pairwise data.numbers

/-- A concrete valid 6/42 candidate record used by witnesses. -/
def rec642 : LotteryResultData :=
  ⟨"6/42", some 1700000000000, [5, 3, 1, 2, 4, 6], none⟩

/-- The 6/42 configuration, as `lookupGame` returns it. -/
def cfg642 : GameConfig :=
  ⟨"6/42", "Lotto 6/42", 42, 6, ["Tuesday", "Thursday", "Saturday"]⟩

/-- Witness for C3 at a concrete record. -/
theorem clean_invariants_of_valid_witness :
    lookupGame rec642.gameName = some cfg642 ∧
      (validateLotteryResult 1700000000000 rec642).isValid = true ∧
      ((cleanLotteryResult rec642).numbers.length = cfg642.numberCount ∧
        (∀ q ∈ (cleanLotteryResult rec642).numbers, 1 ≤ q ∧ q ≤ (cfg642.maxNumber : ℚ)) ∧
        (cleanLotteryResult rec642).numbers.Nodup ∧
        (cleanLotteryResult rec642).numbers.Pairwise (· ≤ ·)) :=
  ⟨by decide, by decide,
    clean_invariants_of_valid 1700000000000 rec642 cfg642 (by decide) (by decide)⟩

/-! ## Claim C4: idempotence of cleaning -/

theorem dropWhile_rdropWhile_self (p : α → Bool) (l : List α) :
    ((l.dropWhile p).rdropWhile p).dropWhile p = (l.dropWhile p).rdropWhile p := by
  rcases hr : (l.dropWhile p).rdropWhile p with - | ⟨a, r⟩
  · rfl
  · have hpref : (a :: r) <+: l.dropWhile p := by
      rw [← hr]
      exact List.rdropWhile_prefix p (l.dropWhile p)
    obtain ⟨t, ht⟩ := hpref
    have hne : l.dropWhile p ≠ [] := by
      rw [← ht]
      simp
    have hhead := List.head_dropWhile_not p l hne
    have ha : (l.dropWhile p).head hne = a := by
      have : l.dropWhile p = a :: (r ++ t) := by
        rw [← ht]
        simp
      simp [this]
    rw [ha] at hhead
    simp [List.dropWhile_cons, hhead]

theorem jsTrim_idem (s : String) : jsTrim (jsTrim s) = jsTrim s := by
  unfold jsTrim
  congr 1
  have hd : (String.mk ((s.data.dropWhile Char.isWhitespace).rdropWhile
      Char.isWhitespace)).data =
      (s.data.dropWhile Char.isWhitespace).rdropWhile Char.isWhitespace := rfl
  rw [hd, dropWhile_rdropWhile_self, List.rdropWhile_idempotent]

theorem jsSortNums_idem (l : List ℚ) : jsSortNums (jsSortNums l) = jsSortNums l := by
  apply jsSortBy_eq_self
  exact (jsSortNums_pairwise l).imp (fun h => decide_eq_true h)

theorem round2_idem (q : ℚ) : round2 (round2 q) = round2 q := by
  unfold round2
  rw [div_mul_cancel₀ _ (by norm_num : (100 : ℚ) ≠ 0), round_intCast]

/-- C4 (amended): cleaning is idempotent for every record whose jackpot
is absent, zero, or does not round to zero at two decimal places.  (A
defined nonzero jackpot strictly below 0.005 rounds to 0, which the
second cleaning pass then drops to `undefined` by truthiness.) -/
theorem clean_idempotent (data : LotteryResultData)
    (hj : data.jackpot = none ∨ data.jackpot = some 0 ∨
      ∃ j, data.jackpot = some j ∧ round2 j ≠ 0) :
    cleanLotteryResult (cleanLotteryResult data) = cleanLotteryResult data := by
  unfold cleanLotteryResult
  simp only [LotteryResultData.mk.injEq]
  refine ⟨jsTrim_idem _, trivial, jsSortNums_idem _, ?_⟩
  rcases hj with h0 | h0 | ⟨j, hj0, hr⟩
  · rw [h0]
  · rw [h0]
    simp
  · have hj1 : j ≠ 0 := by
      intro h
      apply hr
      rw [h]
      simp [round2]
    rw [hj0]
    simp [hj1, hr, round2_idem]

/-- A record whose tiny nonzero jackpot (0.004 = 1/250) rounds to zero
at two decimals. -/
def recTinyJack : LotteryResultData :=
  ⟨"6/42", some 1700000000000, [1, 2, 3, 4, 5, 6], some (mkRat 1 250)⟩

theorem round2_tiny : round2 (mkRat 1 250) = 0 := by
  rw [Rat.mkRat_eq_div]
  norm_num [round2, round_eq]

/-- Counterexample to C4 as stated: a well-formed (indeed valid) record
whose jackpot is 0.004 cleans to jackpot 0, and the second cleaning pass
maps that 0 to `undefined`, so `clean (clean r) ≠ clean r`. -/
theorem clean_not_idempotent :
    (validateLotteryResult 1700000000000 recTinyJack).isValid = true ∧
      (cleanLotteryResult recTinyJack).jackpot = some 0 ∧
      (cleanLotteryResult (cleanLotteryResult recTinyJack)).jackpot = none ∧
      cleanLotteryResult (cleanLotteryResult recTinyJack) ≠
        cleanLotteryResult recTinyJack := by
  have h1 : (mkRat 1 250) ≠ 0 := by decide
  have h2 : (cleanLotteryResult recTinyJack).jackpot = some 0 := by
    simp [cleanLotteryResult, recTinyJack, h1, round2_tiny]
  refine ⟨by decide, h2, ?_, ?_⟩
  · simp [cleanLotteryResult, recTinyJack, h1, round2_tiny]
  · intro h
    have hco := congrArg LotteryResultData.jackpot h
    simp [cleanLotteryResult, recTinyJack, h1, round2_tiny] at hco

/-- A record with an ordinary nonzero jackpot. -/
def recBigJack : LotteryResultData :=
  ⟨"6/42", some 1700000000000, [1, 2, 3, 4, 5, 6], some 500⟩

/-- Witness for the amended C4 at a concrete record. -/
theorem clean_idempotent_witness :
    (recBigJack.jackpot = none ∨ recBigJack.jackpot = some 0 ∨
      ∃ j, recBigJack.jackpot = some j ∧ round2 j ≠ 0) ∧
      cleanLotteryResult (cleanLotteryResult recBigJack) = cleanLotteryResult recBigJack :=
  ⟨Or.inr (Or.inr ⟨500, rfl, by norm_num [round2, round_eq]⟩),
    clean_idempotent recBigJack
      (Or.inr (Or.inr ⟨500, rfl, by norm_num [round2, round_eq]⟩))⟩

/-! ## Claim C6: jackpot preservation under cleaning -/

/-- C6 (amended): cleaning maps a defined nonzero jackpot to its
2-decimal rounding, and maps an undefined or zero jackpot to
`undefined` (the truthiness test drops the defined value 0). -/
theorem clean_jackpot (data : LotteryResultData) :
    (∀ j : ℚ, data.jackpot = some j → j ≠ 0 →
        (cleanLotteryResult data).jackpot = some (round2 j)) ∧
      ((data.jackpot = none ∨ data.jackpot = some 0) →
        (cleanLotteryResult data).jackpot = none) := by
  constructor
  · intro j hj hj0
    simp [cleanLotteryResult, hj, hj0]
  · rintro (h | h) <;> simp [cleanLotteryResult, h]

/-- A validated record whose jackpot is the defined value 0. -/
def recZeroJack : LotteryResultData :=
  ⟨"6/42", some 1700000000000, [1, 2, 3, 4, 5, 6], some 0⟩

/-- Counterexample to C6 as stated: this record passes validation with a
defined jackpot of 0, yet the cleaned record has an undefined jackpot
rather than `round2 0 = 0`. -/
theorem clean_jackpot_zero_dropped :
    (validateLotteryResult 1700000000000 recZeroJack).isValid = true ∧
      recZeroJack.jackpot = some 0 ∧
      (cleanLotteryResult recZeroJack).jackpot = none := by
  decide

/-- Witness for the amended C6 at a concrete record. -/
theorem clean_jackpot_witness :
    recBigJack.jackpot = some 500 ∧ (500 : ℚ) ≠ 0 ∧
      (cleanLotteryResult recBigJack).jackpot = some (round2 500) :=
  ⟨rfl, by norm_num, (clean_jackpot recBigJack).1 500 rfl (by norm_num)⟩

/-! ## Claim C9: unknown game name short-circuits the number checks -/

theorem firstChar_ne {s t : String} (h : s.data.head? ≠ t.data.head?) : s ≠ t :=
  fun he => h (by rw [he])

theorem invalidGameErr_head (name : String) :
    (invalidGameErr name).data.head? = some 'I' := by
  simp [invalidGameErr, String.data_append]

theorem countErr_head (a b : Nat) : (countErr a b).data.head? = some 'E' := by
  simp [countErr, String.data_append]

theorem notIntErr_head (i : Nat) (q : ℚ) : (notIntErr i q).data.head? = some 'N' := by
  simp [notIntErr, String.data_append]

theorem rangeErr_head (q : ℚ) (i m : Nat) : (rangeErr q i m).data.head? = some 'N' := by
  simp [rangeErr, String.data_append]

theorem dateErrsOf_sub (data : LotteryResultData) :
    ∀ e ∈ dateErrsOf data, e = dateFormatErr := by
  intro e he
  unfold dateErrsOf at he
  split at he <;> simp_all

theorem jackpotErrsOf_sub (data : LotteryResultData) :
    ∀ e ∈ jackpotErrsOf data, e = jackpotErr := by
  intro e he
  unfold jackpotErrsOf at he
  split at he
  · simp at he
  · split at he <;> simp_all

/-- C9: for a candidate whose game name is non-empty but unknown, the
validation outcome contains the unknown-game fatal error (and is
invalid), and contains no count-mismatch, non-integer or out-of-range
errors, because the lookup guard short-circuits the number checks. -/
theorem unknown_game_short_circuit (now : Int) (data : LotteryResultData)
    (hne : data.gameName ≠ "") (hlk : lookupGame data.gameName = none) :
    invalidGameErr data.gameName ∈ (validateLotteryResult now data).errors ∧
      (validateLotteryResult now data).isValid = false ∧
      (∀ a b, countErr a b ∉ (validateLotteryResult now data).errors) ∧
      (∀ i q, notIntErr i q ∉ (validateLotteryResult now data).errors) ∧
      (∀ q i m, rangeErr q i m ∉ (validateLotteryResult now data).errors) := by
  have hge : gameErrsOf data = [invalidGameErr data.gameName] := by
    simp [gameErrsOf, hne, hlk]
  have hnum : numberErrsOf data = [] := by
    simp [numberErrsOf, hlk]
  have herr : (validateLotteryResult now data).errors =
      [invalidGameErr data.gameName] ++ dateErrsOf data ++ [] ++ jackpotErrsOf data := by
    rw [validate_errors_eq, hge, hnum]
  have hsub : ∀ e ∈ (validateLotteryResult now data).errors,
      e = invalidGameErr data.gameName ∨ e = dateFormatErr ∨ e = jackpotErr := by
    intro e he
    rw [herr] at he
    simp only [List.append_nil, List.mem_append, List.mem_singleton] at he
    rcases he with (he | he) | he
    · exact Or.inl he
    · exact Or.inr (Or.inl (dateErrsOf_sub data e he))
    · exact Or.inr (Or.inr (jackpotErrsOf_sub data e he))
  refine ⟨?_, ?_, ?_, ?_, ?_⟩
  · rw [herr]
    simp
  · rw [validate_isValid_eq, herr]
    simp
  · intro a b hmem
    rcases hsub _ hmem with h | h | h
    · exact firstChar_ne (by rw [countErr_head, invalidGameErr_head]; decide) h
    · exact firstChar_ne (by rw [countErr_head]; decide) h
    · exact firstChar_ne (by rw [countErr_head]; decide) h
  · intro i q hmem
    rcases hsub _ hmem with h | h | h
    · exact firstChar_ne (by rw [notIntErr_head, invalidGameErr_head]; decide) h
    · exact firstChar_ne (by rw [notIntErr_head]; decide) h
    · exact firstChar_ne (by rw [notIntErr_head]; decide) h
  · intro q i m hmem
    rcases hsub _ hmem with h | h | h
    · exact firstChar_ne (by rw [rangeErr_head, invalidGameErr_head]; decide) h
    · exact firstChar_ne (by rw [rangeErr_head]; decide) h
    · exact firstChar_ne (by rw [rangeErr_head]; decide) h

/-- A record with a plausible but unknown game name. -/
def recUnknown : LotteryResultData :=
  ⟨"6/44", some 1700000000000, [1, 2, 3, 4, 5, 99], none⟩

/-- Witness for C9 at a concrete record. -/
theorem unknown_game_short_circuit_witness :
    recUnknown.gameName ≠ "" ∧ lookupGame recUnknown.gameName = none ∧
      (invalidGameErr recUnknown.gameName ∈
          (validateLotteryResult 1700000000000 recUnknown).errors ∧
        (validateLotteryResult 1700000000000 recUnknown).isValid = false ∧
        (∀ a b, countErr a b ∉ (validateLotteryResult 1700000000000 recUnknown).errors) ∧
        (∀ i q, notIntErr i q ∉ (validateLotteryResult 1700000000000 recUnknown).errors) ∧
        (∀ q i m, rangeErr q i m ∉ (validateLotteryResult 1700000000000 recUnknown).errors)) :=
  ⟨by decide, by decide,
    unknown_game_short_circuit 1700000000000 recUnknown (by decide) (by decide)⟩

/-! ## Claim C7: duplicate grouping -/

def findGroup (key : String) (gs : List (String × List LotteryResultData)) :
    Option (List LotteryResultData) :=
  (gs.find? (fun p => p.1 == key)).map (·.2)

theorem addToGroups_findGroup (gs : List (String × List LotteryResultData))
    (key k : String) (r : LotteryResultData) :
    findGroup key (addToGroups k r gs) =
      if key = k then some (((findGroup k gs).getD []) ++ [r])
      else findGroup key gs := by
  induction gs with
  | nil =>
      by_cases h : key = k
      · subst h
        simp [findGroup, addToGroups, List.find?_cons]
      · have hb : (k == key) = false := beq_eq_false_iff_ne.mpr (fun he => h he.symm)
        simp [findGroup, addToGroups, List.find?_cons, hb, h]
  | cons p rest ih =>
      obtain ⟨k1, g⟩ := p
      simp only [addToGroups]
      by_cases h1 : k1 = k
      · subst h1
        rw [if_pos rfl]
        by_cases h2 : key = k1
        · subst h2
          simp [findGroup, List.find?_cons]
        · have hb : (key == key) = true := beq_self_eq_true key
          have hb2 : (k1 == key) = false := beq_eq_false_iff_ne.mpr (fun he => h2 he.symm)
          simp [findGroup, List.find?_cons, hb2, h2]
      · rw [if_neg h1]
        by_cases h2 : k1 = key
        · subst h2
          have hkk : ¬ k1 = k := h1
          have hb : (k1 == k1) = true := beq_self_eq_true k1
          simp [findGroup, List.find?_cons, hb, hkk]
        · have hb : (k1 == key) = false := beq_eq_false_iff_ne.mpr h2
          have hb2 : (k1 == k) = false := beq_eq_false_iff_ne.mpr h1
          simp only [findGroup, List.find?_cons, hb, hb2] at ih ⊢
          exact ih

theorem dupGroupsAux_findGroup (rs : List LotteryResultData)
    (acc : List (String × List LotteryResultData)) (key : String) :
    findGroup key (rs.foldl (fun gs r => addToGroups (dupKey r) r gs) acc) =
      match findGroup key acc with
      | some g => some (g ++ rs.filter (fun r => dupKey r == key))
      | none =>
          if (rs.filter (fun r => dupKey r == key)).isEmpty then none
          else some (rs.filter (fun r => dupKey r == key)) := by
  induction rs generalizing acc with
  | nil =>
      rcases h : findGroup key acc with - | g <;> simp [h]
  | cons r rs ih =>
      simp only [List.foldl_cons]
      rw [ih]
      by_cases hk : dupKey r = key
      · have hb : (dupKey r == key) = true := beq_iff_eq.mpr hk
        rw [addToGroups_findGroup, if_pos hk.symm, hk]
        rcases h : findGroup key acc with - | g
        · simp [h, hb, List.filter_cons]
        · simp [h, hb, List.filter_cons]
      · have hb : (dupKey r == key) = false := beq_eq_false_iff_ne.mpr hk
        rw [addToGroups_findGroup, if_neg (fun he => hk he.symm)]
        simp [hb, List.filter_cons]

theorem dupGroups_findGroup (rs : List LotteryResultData) (key : String) :
    findGroup key (dupGroups rs) =
      if (rs.filter (fun r => dupKey r == key)).isEmpty then none
      else some (rs.filter (fun r => dupKey r == key)) := by
  have h := dupGroupsAux_findGroup rs [] key
  have h0 : findGroup key ([] : List (String × List LotteryResultData)) = none := rfl
  rw [h0] at h
  exact h

theorem addToGroups_key_inv {gs : List (String × List LotteryResultData)}
    (hgs : ∀ p ∈ gs, ∀ a ∈ p.2, dupKey a = p.1)
    {k : String} {r : LotteryResultData} (hk : dupKey r = k) :
    ∀ p ∈ addToGroups k r gs, ∀ a ∈ p.2, dupKey a = p.1 := by
  induction gs with
  | nil =>
      intro p hp a ha
      simp only [addToGroups, List.mem_singleton] at hp
      subst hp
      simp only [List.mem_singleton] at ha
      subst ha
      exact hk
  | cons q rest ih =>
      obtain ⟨k1, g⟩ := q
      intro p hp a ha
      simp only [addToGroups] at hp
      by_cases h1 : k1 = k
      · rw [if_pos h1] at hp
        rcases List.mem_cons.mp hp with rfl | hp2
        · simp only at ha
          rcases List.mem_append.mp ha with hag | har
          · exact hgs (k1, g) (List.mem_cons_self _ _) a hag
          · rw [List.mem_singleton.mp har, hk, h1]
        · exact hgs p (List.mem_cons_of_mem _ hp2) a ha
      · rw [if_neg h1] at hp
        rcases List.mem_cons.mp hp with rfl | hp2
        · exact hgs _ (List.mem_cons_self _ _) a ha
        · exact ih (fun q hq => hgs q (List.mem_cons_of_mem _ hq)) p hp2 a ha

theorem dupGroups_key_inv (rs : List LotteryResultData) :
    ∀ p ∈ dupGroups rs, ∀ a ∈ p.2, dupKey a = p.1 := by
  suffices h : ∀ acc, (∀ p ∈ acc, ∀ a ∈ p.2, dupKey a = p.1) →
      ∀ p ∈ rs.foldl (fun gs r => addToGroups (dupKey r) r gs) acc,
        ∀ a ∈ p.2, dupKey a = p.1 by
    exact h [] (by simp)
  induction rs with
  | nil =>
      intro acc hacc
      simpa using hacc
  | cons r rs ih =>
      intro acc hacc
      simp only [List.foldl_cons]
      exact ih _ (addToGroups_key_inv hacc rfl)

theorem two_le_filter_length {p : LotteryResultData → Bool} {rs : List LotteryResultData}
    {i j : Nat} (hij : i < j) (hj : j < rs.length)
    (hpi : p (rs.get ⟨i, lt_trans hij hj⟩) = true) (hpj : p (rs.get ⟨j, hj⟩) = true) :
    2 ≤ (rs.filter p).length := by
  have hi : i < rs.length := lt_trans hij hj
  have hmem1 : rs.get ⟨i, hi⟩ ∈ rs.take j := by
    have hlen : i < (rs.take j).length := by
      simp only [List.length_take]
      omega
    have hgetEq : (rs.take j).get ⟨i, hlen⟩ = rs.get ⟨i, hi⟩ := by
      simp [List.getElem_take]
    rw [← hgetEq]
    exact List.get_mem _ _ _
  have hmem2 : rs.get ⟨j, hj⟩ ∈ rs.drop j := by
    have hlen : 0 < (rs.drop j).length := by
      simp only [List.length_drop]
      omega
    have hgetEq : (rs.drop j).get ⟨0, hlen⟩ = rs.get ⟨j, hj⟩ := by
      simp [List.getElem_drop]
    rw [← hgetEq]
    exact List.get_mem _ _ _
  have h1 : 0 < ((rs.take j).filter p).length :=
    List.length_pos.mpr (List.ne_nil_of_mem (List.mem_filter.mpr ⟨hmem1, hpi⟩))
  have h2 : 0 < ((rs.drop j).filter p).length :=
    List.length_pos.mpr (List.ne_nil_of_mem (List.mem_filter.mpr ⟨hmem2, hpj⟩))
  have hsplit : (rs.filter p).length =
      ((rs.take j).filter p).length + ((rs.drop j).filter p).length := by
    conv_lhs => rw [← List.take_append_drop j rs]
    rw [List.filter_append, List.length_append]
  omega

/-- C7 main. -/
theorem detectDuplicates_congruence (rs : List LotteryResultData)
    (i j : Nat) (hi : i < rs.length) (hj : j < rs.length) (hij : i ≠ j)
    (hname : (rs.get ⟨i, hi⟩).gameName = (rs.get ⟨j, hj⟩).gameName)
    (hdate : jsToDateString (rs.get ⟨i, hi⟩).drawDate = jsToDateString (rs.get ⟨j, hj⟩).drawDate) :
    (∃ g ∈ detectDuplicates rs, rs.get ⟨i, hi⟩ ∈ g ∧ rs.get ⟨j, hj⟩ ∈ g) ∧
      ∀ g ∈ detectDuplicates rs, 2 ≤ g.length ∧
        ∀ a ∈ g, ∀ b ∈ g, dupKey a = dupKey b := by
  constructor
  · have hkey : dupKey (rs.get ⟨i, hi⟩) = dupKey (rs.get ⟨j, hj⟩) := by
      unfold dupKey
      rw [hname, hdate]
    have hpi : (fun r => dupKey r == dupKey (rs.get ⟨j, hj⟩)) (rs.get ⟨i, hi⟩) = true := by
      simp only [List.get_eq_getElem] at hkey ⊢
      simp [hkey]
    have hpj : (fun r => dupKey r == dupKey (rs.get ⟨j, hj⟩)) (rs.get ⟨j, hj⟩) = true := by
      simp
    have hFlen : 2 ≤ (rs.filter (fun r => dupKey r == dupKey (rs.get ⟨j, hj⟩))).length := by
      rcases Nat.lt_or_ge i j with hlt | hge
      · exact two_le_filter_length hlt hj hpi hpj
      · have hgt : j < i := lt_of_le_of_ne hge (fun he => hij he.symm)
        exact two_le_filter_length hgt hi hpj hpi
    have hmemi : rs.get ⟨i, hi⟩ ∈ rs.filter (fun r => dupKey r == dupKey (rs.get ⟨j, hj⟩)) :=
      List.mem_filter.mpr ⟨List.getElem_mem _, hpi⟩
    have hmemj : rs.get ⟨j, hj⟩ ∈ rs.filter (fun r => dupKey r == dupKey (rs.get ⟨j, hj⟩)) :=
      List.mem_filter.mpr ⟨List.getElem_mem _, hpj⟩
    have hfind : findGroup (dupKey (rs.get ⟨j, hj⟩)) (dupGroups rs) =
        some (rs.filter (fun r => dupKey r == dupKey (rs.get ⟨j, hj⟩))) := by
      rw [dupGroups_findGroup, if_neg]
      rw [List.isEmpty_iff]
      exact List.ne_nil_of_mem hmemj
    obtain ⟨pr, hprfind, hpr2⟩ : ∃ pr,
        (dupGroups rs).find? (fun p => p.1 == dupKey (rs.get ⟨j, hj⟩)) = some pr ∧
          pr.2 = rs.filter (fun r => dupKey r == dupKey (rs.get ⟨j, hj⟩)) := by
      unfold findGroup at hfind
      rcases hfound : (dupGroups rs).find? (fun p => p.1 == dupKey (rs.get ⟨j, hj⟩)) with - | pr
      · rw [hfound] at hfind
        exact Option.noConfusion hfind
      · rw [hfound] at hfind
        exact ⟨pr, hfound, by injection hfind⟩
    have hprmem : pr ∈ dupGroups rs := List.mem_of_find?_eq_some hprfind
    refine ⟨pr.2, ?_, hpr2 ▸ hmemi, hpr2 ▸ hmemj⟩
    unfold detectDuplicates
    apply List.mem_map_of_mem
    apply List.mem_filter.mpr
    refine ⟨hprmem, ?_⟩
    simp only [hpr2, gt_iff_lt, decide_eq_true_eq]
    omega
  · intro g hg
    unfold detectDuplicates at hg
    obtain ⟨pr, hprmem, rfl⟩ := List.mem_map.mp hg
    obtain ⟨hmem, hlen⟩ := List.mem_filter.mp hprmem
    have hkeyinv := dupGroups_key_inv rs pr hmem
    constructor
    · simp only [gt_iff_lt, decide_eq_true_eq] at hlen
      omega
    · intro a ha b hb
      rw [hkeyinv a ha, hkeyinv b hb]

def dupA : LotteryResultData := ⟨"6/42", some 0, [1, 2, 3, 4, 5, 6], none⟩
def dupB : LotteryResultData := ⟨"6/45", some 86400000, [1, 2, 3, 4, 5, 6], none⟩
def dupC : LotteryResultData := ⟨"6/42", some 3600000, [7, 8, 9, 10, 11, 12], none⟩

theorem detectDuplicates_congruence_witness :
    (0 : Nat) ≠ 2 ∧
      (([dupA, dupB, dupC].get ⟨0, by decide⟩).gameName =
        ([dupA, dupB, dupC].get ⟨2, by decide⟩).gameName) ∧
      jsToDateString ([dupA, dupB, dupC].get ⟨0, by decide⟩).drawDate =
        jsToDateString ([dupA, dupB, dupC].get ⟨2, by decide⟩).drawDate ∧
      ((∃ g ∈ detectDuplicates [dupA, dupB, dupC],
          ([dupA, dupB, dupC].get ⟨0, by decide⟩) ∈ g ∧
            ([dupA, dupB, dupC].get ⟨2, by decide⟩) ∈ g) ∧
        ∀ g ∈ detectDuplicates [dupA, dupB, dupC], 2 ≤ g.length ∧
          ∀ a ∈ g, ∀ b ∈ g, dupKey a = dupKey b) :=
  ⟨by decide, by decide, by decide,
    detectDuplicates_congruence [dupA, dupB, dupC] 0 2 (by decide) (by decide)
      (by decide) (by decide) (by decide)⟩

/-! ## Claims C8 and C10: hot and cold numbers -/

/-- The order in which the statistics engine is specified to arrange the
distinct drawn numbers: strictly greater frequency first, ties by
ascending numeric value. -/
def hotColdLe (results : List (List ℕ)) (x y : ℕ) : Prop :=
  numberFrequency results y < numberFrequency results x ∨
    (numberFrequency results x = numberFrequency results y ∧ x ≤ y)

instance hotColdLeDec (results : List (List ℕ)) : DecidableRel (hotColdLe results) :=
  fun _ _ => inferInstanceAs (Decidable (_ ∨ _))

theorem freqKeys_perm (results : List (List ℕ)) :
    (freqKeys results).Perm (results.flatMap id).dedup :=
  jsSortBy_perm _ _

theorem freqKeys_sorted (results : List (List ℕ)) :
    (freqKeys results).Pairwise (· < ·) := by
  have hle : (freqKeys results).Pairwise (· ≤ ·) := by
    refine jsSortBy_pairwise ?_ ?_ _
    · intro a b h
      exact of_decide_eq_true h
    · intro a b h
      exact Nat.le_of_lt (Nat.lt_of_not_le (of_decide_eq_false h))
  have hnd : (freqKeys results).Nodup :=
    (freqKeys_perm results).nodup_iff.mpr (List.nodup_dedup _)
  exact (hle.and hnd).imp (fun h => lt_of_le_of_ne h.1 h.2)

theorem jsInsert_hotCold {results : List (List ℕ)} {x : ℕ} {ys : List ℕ}
    (hys : ys.Pairwise (hotColdLe results)) (hlt : ∀ y ∈ ys, x < y) :
    (jsInsert (fun a b => numberFrequency results b ≤ numberFrequency results a)
      x ys).Pairwise (hotColdLe results) := by
  induction ys with
  | nil => simp [jsInsert, List.pairwise_cons]
  | cons y ys ih =>
      rcases List.pairwise_cons.mp hys with ⟨hy, hys2⟩
      simp only [jsInsert]
      by_cases hf : numberFrequency results y ≤ numberFrequency results x
      · rw [if_pos (by simpa using hf)]
        refine List.pairwise_cons.mpr ⟨?_, hys⟩
        intro z hz
        rcases List.mem_cons.mp hz with rfl | hzys
        · rcases Nat.lt_or_ge (numberFrequency results z) (numberFrequency results x) with
            hlt2 | hge
          · exact Or.inl hlt2
          · exact Or.inr ⟨Nat.le_antisymm hge hf,
              Nat.le_of_lt (hlt z (List.mem_cons_self _ _))⟩
        · have hyz := hy z hzys
          have hzy : numberFrequency results z ≤ numberFrequency results y := by
            rcases hyz with h | h
            · exact Nat.le_of_lt h
            · exact Nat.le_of_eq h.1.symm
          rcases Nat.lt_or_ge (numberFrequency results z) (numberFrequency results x) with
            hlt2 | hge
          · exact Or.inl hlt2
          · exact Or.inr ⟨Nat.le_antisymm hge (le_trans hzy hf),
              Nat.le_of_lt (hlt z (List.mem_cons_of_mem _ hzys))⟩
      · rw [if_neg (by simpa using hf)]
        have hfx : numberFrequency results x < numberFrequency results y :=
          Nat.lt_of_not_le hf
        refine List.pairwise_cons.mpr
          ⟨?_, ih hys2 (fun z hz => hlt z (List.mem_cons_of_mem _ hz))⟩
        intro z hz
        rcases List.mem_cons.mp ((jsInsert_perm _ x ys).mem_iff.mp hz) with rfl | hzys
        · exact Or.inl hfx
        · exact hy z hzys

theorem jsSortBy_hotCold {results : List (List ℕ)} {l : List ℕ}
    (hl : l.Pairwise (· < ·)) :
    (jsSortBy (fun a b => numberFrequency results b ≤ numberFrequency results a)
      l).Pairwise (hotColdLe results) := by
  induction l with
  | nil => simp [jsSortBy]
  | cons x xs ih =>
      rcases List.pairwise_cons.mp hl with ⟨hx, hxs⟩
      simp only [jsSortBy]
      refine jsInsert_hotCold (ih hxs) ?_
      intro y hy
      exact hx y ((jsSortBy_perm _ xs).mem_iff.mp hy)

theorem sortedNumbers_pairwise (results : List (List ℕ)) :
    (sortedNumbers results).Pairwise (hotColdLe results) :=
  jsSortBy_hotCold (freqKeys_sorted results)

theorem sortedNumbers_perm (results : List (List ℕ)) :
    (sortedNumbers results).Perm (results.flatMap id).dedup :=
  (jsSortBy_perm _ _).trans (freqKeys_perm results)

theorem sortedNumbers_unique {results : List (List ℕ)} {s : List ℕ}
    (hperm : s.Perm (results.flatMap id).dedup)
    (hsort : s.Pairwise (hotColdLe results)) :
    s = sortedNumbers results := by
  haveI : IsAntisymm ℕ (hotColdLe results) := by
    constructor
    intro a b hab hba
    rcases hab with h1 | h1 <;> rcases hba with h2 | h2 <;> omega
  exact List.eq_of_perm_of_sorted (hperm.trans (sortedNumbers_perm results).symm)
    hsort (sortedNumbers_pairwise results)

/-- C8: for a non-empty history, `hotNumbers` is the first 10 elements of
any arrangement `s` of the distinct drawn numbers that is sorted by
descending frequency with ties in ascending numeric order, and
`coldNumbers` is the last 10 elements of the same `s`, reversed. -/
theorem hotCold_spec (results : List (List ℕ)) (hne : results ≠ [])
    (s : List ℕ) (hperm : s.Perm (results.flatMap id).dedup)
    (hsort : s.Pairwise (hotColdLe results)) :
    (calculateGameStatistics results).hotNumbers = s.take 10 ∧
      (calculateGameStatistics results).coldNumbers =
        (s.drop (s.length - 10)).reverse := by
  have hs : s = sortedNumbers results := sortedNumbers_unique hperm hsort
  subst hs
  unfold calculateGameStatistics
  rw [if_neg (by simpa [List.isEmpty_iff] using hne)]
  exact ⟨rfl, rfl⟩

/-- Witness for C8: two draws, numbers 1 and 3 once each, number 2
twice; the sorted arrangement is `[2, 1, 3]`. -/
theorem hotCold_spec_witness :
    ([[1, 2], [2, 3]] : List (List ℕ)) ≠ [] ∧
      ([2, 1, 3] : List ℕ).Perm (([[1, 2], [2, 3]] : List (List ℕ)).flatMap id).dedup ∧
      ([2, 1, 3] : List ℕ).Pairwise (hotColdLe [[1, 2], [2, 3]]) ∧
      ((calculateGameStatistics [[1, 2], [2, 3]]).hotNumbers = [2, 1, 3].take 10 ∧
        (calculateGameStatistics [[1, 2], [2, 3]]).coldNumbers =
          (([2, 1, 3] : List ℕ).drop ([2, 1, 3].length - 10)).reverse) :=
  ⟨by decide, List.isPerm_iff.mp (by decide), by decide,
    hotCold_spec [[1, 2], [2, 3]] (by decide) [2, 1, 3]
      (List.isPerm_iff.mp (by decide)) (by decide)⟩

/-- C10: with at most 10 distinct drawn numbers, hot and cold carry the
same set (cold is the reverse of hot); with fewer than 20 distinct drawn
numbers, hot and cold overlap.  A result history of a game consists of
draws that each contain at least one number. -/
theorem hotCold_overlap (results : List (List ℕ)) (hne : results ≠ [])
    (hdr : ∀ d ∈ results, d ≠ []) :
    ((results.flatMap id).dedup.length ≤ 10 →
      ((calculateGameStatistics results).coldNumbers =
          (calculateGameStatistics results).hotNumbers.reverse ∧
        ∀ n, n ∈ (calculateGameStatistics results).hotNumbers ↔
          n ∈ (calculateGameStatistics results).coldNumbers)) ∧
    ((results.flatMap id).dedup.length < 20 →
      ∃ n, n ∈ (calculateGameStatistics results).hotNumbers ∧
        n ∈ (calculateGameStatistics results).coldNumbers) := by
  have hslen : (sortedNumbers results).length = (results.flatMap id).dedup.length :=
    (sortedNumbers_perm results).length_eq
  have hstats : calculateGameStatistics results =
      ⟨results.length, (sortedNumbers results).take 10,
        ((sortedNumbers results).drop ((sortedNumbers results).length - 10)).reverse⟩ := by
    unfold calculateGameStatistics
    rw [if_neg (by simpa [List.isEmpty_iff] using hne)]
  have hpos : 0 < (sortedNumbers results).length := by
    rw [hslen]
    have hfm : (results.flatMap id) ≠ [] := by
      rcases results with - | ⟨d, rest⟩
      · exact absurd rfl hne
      · have hd := hdr d (List.mem_cons_self _ _)
        intro hcontra
        rw [List.flatMap_cons] at hcontra
        exact hd (List.append_eq_nil.mp hcontra).1
    exact List.length_pos.mpr (fun hcontra => hfm ((List.dedup_eq_nil _).mp hcontra))
  constructor
  · intro h10
    have htake : (sortedNumbers results).take 10 = sortedNumbers results :=
      List.take_of_length_le (by omega)
    have hdrop : (sortedNumbers results).drop ((sortedNumbers results).length - 10) =
        sortedNumbers results := by
      have h0 : (sortedNumbers results).length - 10 = 0 := by omega
      rw [h0, List.drop_zero]
    constructor
    · simp only [hstats, htake, hdrop]
    · intro n
      simp only [hstats, htake, hdrop, List.mem_reverse]
  · intro h20
    have hidxlt : (sortedNumbers results).length - 10 < (sortedNumbers results).length := by
      omega
    have hidx10 : (sortedNumbers results).length - 10 < 10 := by omega
    refine ⟨(sortedNumbers results).get ⟨(sortedNumbers results).length - 10, hidxlt⟩, ?_, ?_⟩
    · have hlen : (sortedNumbers results).length - 10 <
          ((sortedNumbers results).take 10).length := by
        simp only [List.length_take]
        omega
      have hget : ((sortedNumbers results).take 10).get ⟨(sortedNumbers results).length - 10,
          hlen⟩ = (sortedNumbers results).get ⟨(sortedNumbers results).length - 10, hidxlt⟩ := by
        simp [List.getElem_take]
      simp only [hstats]
      rw [← hget]
      exact List.get_mem _ _ _
    · have hlen : 0 < ((sortedNumbers results).drop
          ((sortedNumbers results).length - 10)).length := by
        simp only [List.length_drop]
        omega
      have hget : ((sortedNumbers results).drop ((sortedNumbers results).length - 10)).get
          ⟨0, hlen⟩ =
          (sortedNumbers results).get ⟨(sortedNumbers results).length - 10, hidxlt⟩ := by
        simp [List.getElem_drop]
      simp only [hstats, List.mem_reverse]
      rw [← hget]
      exact List.get_mem _ _ _

/-- Witness for C10 at the same concrete two-draw history. -/
theorem hotCold_overlap_witness :
    ([[1, 2], [2, 3]] : List (List ℕ)) ≠ [] ∧
      (∀ d ∈ ([[1, 2], [2, 3]] : List (List ℕ)), d ≠ []) ∧
      ((([[1, 2], [2, 3]] : List (List ℕ)).flatMap id).dedup.length ≤ 10 →
        ((calculateGameStatistics [[1, 2], [2, 3]]).coldNumbers =
            (calculateGameStatistics [[1, 2], [2, 3]]).hotNumbers.reverse ∧
          ∀ n, n ∈ (calculateGameStatistics [[1, 2], [2, 3]]).hotNumbers ↔
            n ∈ (calculateGameStatistics [[1, 2], [2, 3]]).coldNumbers)) ∧
      ((([[1, 2], [2, 3]] : List (List ℕ)).flatMap id).dedup.length < 20 →
        ∃ n, n ∈ (calculateGameStatistics [[1, 2], [2, 3]]).hotNumbers ∧
          n ∈ (calculateGameStatistics [[1, 2], [2, 3]]).coldNumbers) := by
  refine ⟨by decide, by decide, ?_⟩
  exact hotCold_overlap [[1, 2], [2, 3]] (by decide) (by decide)

/-! ## Claim C5: consecutive-number rate -/

theorem findConsecutivePatterns_percentage (results : List (List ℕ)) :
    (findConsecutivePatterns results).percentage =
      if results.length > 0 then
        toFixed1 ((((results.map countAdjPairs).sum : ℚ)) /
          ((results.length : ℚ) * 5) * 100)
      else 0 := rfl

/-- C5 (amended): for a non-empty window, the consecutive-number rate is
the total count of adjacent-by-one pairs within each sorted result,
divided by `window_size * (numberCount - 1)` (the code divides by the
hard-coded 5, which equals `numberCount - 1` for every configured game),
expressed as a percentage rounded at one decimal. -/
theorem consecutive_rate (g : GameConfig) (hg : g ∈ LOTTERY_GAMES)
    (results : List (List ℕ)) (hne : results ≠ []) :
    (findConsecutivePatterns results).frequency = (results.map countAdjPairs).sum ∧
      (findConsecutivePatterns results).percentage =
        toFixed1 (((results.map countAdjPairs).sum : ℚ) /
          ((results.length : ℚ) * ((g.numberCount : ℚ) - 1)) * 100) := by
  have h6 : g.numberCount = 6 := by fin_cases hg <;> rfl
  have hlen : results.length > 0 := List.length_pos.mpr hne
  constructor
  · rfl
  · rw [findConsecutivePatterns_percentage, if_pos hlen]
    norm_num [h6]

/-- Counterexample to C5 as stated: for the single-draw window
`[1..6]` of game 6/42 the code reports 100.0 percent (5 adjacent pairs
over `1 * 5`), while the claimed formula with divisor
`window_size * numberCount = 6` gives 83.3 percent. -/
theorem consecutive_rate_cx :
    lookupGame "6/42" = some cfg642 ∧
      (findConsecutivePatterns [[1, 2, 3, 4, 5, 6]]).percentage = 100 ∧
      specConsecutivePercentage cfg642 [[1, 2, 3, 4, 5, 6]] = 833 / 10 ∧
      (findConsecutivePatterns [[1, 2, 3, 4, 5, 6]]).percentage ≠
        specConsecutivePercentage cfg642 [[1, 2, 3, 4, 5, 6]] := by
  have hc : (([[1, 2, 3, 4, 5, 6]] : List (List ℕ)).map countAdjPairs).sum = 5 := by
    decide
  have hp1 : (findConsecutivePatterns [[1, 2, 3, 4, 5, 6]]).percentage = 100 := by
    rw [findConsecutivePatterns_percentage, if_pos (by norm_num), hc]
    norm_num [toFixed1, round_eq]
  have hp2 : specConsecutivePercentage cfg642 [[1, 2, 3, 4, 5, 6]] = 833 / 10 := by
    unfold specConsecutivePercentage
    rw [hc]
    norm_num [toFixed1, round_eq, cfg642]
  exact ⟨by decide, hp1, hp2, by rw [hp1, hp2]; norm_num⟩

/-- Witness for the amended C5 at a concrete window. -/
theorem consecutive_rate_witness :
    cfg642 ∈ LOTTERY_GAMES ∧ ([[1, 2, 3]] : List (List ℕ)) ≠ [] ∧
      ((findConsecutivePatterns [[1, 2, 3]]).frequency =
          (([[1, 2, 3]] : List (List ℕ)).map countAdjPairs).sum ∧
        (findConsecutivePatterns [[1, 2, 3]]).percentage =
          toFixed1 (((([[1, 2, 3]] : List (List ℕ)).map countAdjPairs).sum : ℚ) /
            ((([[1, 2, 3]] : List (List ℕ)).length : ℚ) *
              ((cfg642.numberCount : ℚ) - 1)) * 100)) :=
  ⟨by decide, by decide, consecutive_rate cfg642 (by decide) [[1, 2, 3]] (by decide)⟩

/-! ## Claims C1 and C2: batch import accounting and success flag -/

theorem processBatch_count (opts : ImportOptions) (batch : List LotteryResultData)
    (db : Db) :
    (processBatch opts batch db).imported + (processBatch opts batch db).skipped +
      (processBatch opts batch db).errors.length = batch.length := by
  induction batch generalizing db with
  | nil => rfl
  | cons r rs ih =>
      simp only [processBatch]
      split
      · simp only [List.length_cons]
        have := ih db
        omega
      · split
        · simp only [List.length_cons]
          have := ih db
          omega
        · split
          · rename_i db1 heq
            simp only [List.length_cons]
            have := ih db1
            omega
          · rename_i msg heq
            simp only [List.length_cons]
            have := ih db
            omega

theorem processChunks_count (opts : ImportOptions)
    (chunks : List (List LotteryResultData)) (db : Db) :
    (processChunks opts chunks db).imported + (processChunks opts chunks db).skipped +
      (processChunks opts chunks db).errors.length = (chunks.map List.length).sum := by
  induction chunks generalizing db with
  | nil => rfl
  | cons c cs ih =>
      simp only [processChunks, List.map_cons, List.sum_cons, List.length_append]
      have h1 := processBatch_count opts c db
      have h2 := ih (processBatch opts c db).db
      omega

theorem chunksOfGo_sum_length (bs : Nat) (hbs : bs ≠ 0) :
    ∀ (fuel : Nat) (l : List α), l.length ≤ fuel →
      ((chunksOfGo bs fuel l).map List.length).sum = l.length := by
  intro fuel
  induction fuel with
  | zero =>
      intro l hl
      cases l with
      | nil => rfl
      | cons x xs => simp at hl
  | succ fuel ih =>
      intro l hl
      cases l with
      | nil => rfl
      | cons x xs =>
          simp only [chunksOfGo, List.map_cons, List.sum_cons, List.length_take,
            List.length_cons]
          have hih := ih ((x :: xs).drop bs) (by
            simp only [List.length_drop, List.length_cons]
            simp only [List.length_cons] at hl
            omega)
          simp only [List.length_drop, List.length_cons] at hih
          omega

theorem chunksOf_sum_length (bs : Nat) (hbs : bs ≠ 0) (l : List α) :
    ((chunksOf bs l).map List.length).sum = l.length :=
  chunksOfGo_sum_length bs hbs l.length l (le_refl _)

theorem mem_chunksOfGo {bs fuel : Nat} {l c : List α} (hc : c ∈ chunksOfGo bs fuel l)
    {a : α} (ha : a ∈ c) : a ∈ l := by
  induction fuel generalizing l with
  | zero => cases l <;> simp [chunksOfGo] at hc
  | succ fuel ih =>
      cases l with
      | nil => simp [chunksOfGo] at hc
      | cons x xs =>
          simp only [chunksOfGo, List.mem_cons] at hc
          rcases hc with rfl | hc
          · exact List.take_subset _ _ ha
          · exact List.drop_subset _ _ (ih hc)

theorem mem_chunksOf {bs : Nat} {l c : List α} (hc : c ∈ chunksOf bs l)
    {a : α} (ha : a ∈ c) : a ∈ l :=
  mem_chunksOfGo hc ha

theorem validateBatchGo_lengths (now : Int) (rs : List LotteryResultData) :
    (validateBatchGo now rs).1.length + (validateBatchGo now rs).2.1.length = rs.length := by
  induction rs with
  | nil => rfl
  | cons r rs ih =>
      simp only [validateBatchGo]
      split <;> simp only [List.length_cons] <;> omega

/-- C1 (amended): under the default options, for every input batch and
store state, `imported + skipped + details.invalid + |errors|` equals
`details.total` plus one when any record was invalid — the summary
error line accounts for the extra error; each remaining error
corresponds to exactly one record that was neither imported nor skipped
(reference or persistence failure).  Equivalently, the claimed equation
`imported + skipped + invalid = total` holds exactly when no per-record
processing error occurred. -/
theorem import_accounting (now : Int) (results : List LotteryResultData) (db : Db) :
    (importLotteryResults now results DEFAULT_OPTIONS db).1.imported +
      (importLotteryResults now results DEFAULT_OPTIONS db).1.skipped +
      (importLotteryResults now results DEFAULT_OPTIONS db).1.details.invalid +
      (importLotteryResults now results DEFAULT_OPTIONS db).1.errors.length =
    (importLotteryResults now results DEFAULT_OPTIONS db).1.details.total +
      (if 0 < (importLotteryResults now results DEFAULT_OPTIONS db).1.details.invalid
        then 1 else 0) := by
  simp only [importLotteryResults, validateLotteryResults, DEFAULT_OPTIONS,
    Bool.true_and, if_true]
  have hvb := validateBatchGo_lengths now results
  have hout := processChunks_count ⟨true, true, 100⟩
    (chunksOf 100 (validateBatchGo now results).1) db
  have hsum := chunksOf_sum_length 100 (by norm_num) (validateBatchGo now results).1
  rw [hsum] at hout
  by_cases hn : 0 < (validateBatchGo now results).2.1.length
  · rw [if_pos (by simpa using hn)]
    simp only [List.length_append, List.length_cons, List.length_nil]
    rw [if_pos (by omega)]
    omega
  · rw [if_neg (by simpa using hn)]
    simp only [List.length_append, List.length_nil]
    rw [if_neg (by omega)]
    omega

theorem create_ok_inv {db : Db} {row : LotteryResultRow} {db1 : Db}
    (h : db.create row = Except.ok db1) :
    db1.games = db.games ∧ db1.failingCreates = db.failingCreates := by
  unfold Db.create at h
  by_cases h1 : (row.gameId, row.drawDate) ∈ db.failingCreates
  · rw [if_pos h1] at h
    exact absurd h (by simp)
  · rw [if_neg h1] at h
    by_cases h2 : (db.findResult row.gameId row.drawDate).isSome = true
    · rw [if_pos h2] at h
      exact absurd h (by simp)
    · rw [if_neg h2] at h
      injection h with h3
      rw [← h3]
      exact ⟨rfl, rfl⟩

theorem findGame_eq_of_games_eq {db1 db2 : Db} (h : db1.games = db2.games)
    (name : String) : db1.findGame name = db2.findGame name := by
  unfold Db.findGame
  rw [h]

theorem processBatch_db_inv (opts : ImportOptions) (batch : List LotteryResultData)
    (db : Db) :
    (processBatch opts batch db).db.games = db.games ∧
      (processBatch opts batch db).db.failingCreates = db.failingCreates := by
  induction batch generalizing db with
  | nil => exact ⟨rfl, rfl⟩
  | cons r rs ih =>
      simp only [processBatch]
      split
      · exact ih db
      · split
        · exact ih db
        · split
          · rename_i db1 heq
            have hc := create_ok_inv heq
            have hi := ih db1
            exact ⟨hi.1.trans hc.1, hi.2.trans hc.2⟩
          · exact ih db

theorem processBatch_no_errors (opts : ImportOptions) (hskip : opts.skipDuplicates = true)
    (batch : List LotteryResultData) (db : Db)
    (hgames : ∀ r ∈ batch, (db.findGame r.gameName).isSome = true)
    (hfail : db.failingCreates = []) :
    (processBatch opts batch db).errors = [] := by
  induction batch generalizing db with
  | nil => rfl
  | cons r rs ih =>
      simp only [processBatch]
      split
      · rename_i heq
        exact absurd (hgames r (List.mem_cons_self _ _)) (by simp [heq])
      · rename_i game heq
        split
        · exact ih db (fun r' hr' => hgames r' (List.mem_cons_of_mem _ hr')) hfail
        · rename_i hcond
          split
          · rename_i db1 heq2
            apply ih db1 ?_ ((create_ok_inv heq2).2.trans hfail)
            intro r' hr'
            rw [findGame_eq_of_games_eq (create_ok_inv heq2).1]
            exact hgames r' (List.mem_cons_of_mem _ hr')
          · rename_i msg heq2
            exfalso
            have hns : (db.findResult game.id r.drawDate).isSome = false := by
              simpa [hskip] using hcond
            unfold Db.create at heq2
            rw [hfail] at heq2
            simp [hns] at heq2

theorem processChunks_no_errors (opts : ImportOptions)
    (hskip : opts.skipDuplicates = true) (chunks : List (List LotteryResultData))
    (db : Db)
    (hgames : ∀ c ∈ chunks, ∀ r ∈ c, (db.findGame r.gameName).isSome = true)
    (hfail : db.failingCreates = []) :
    (processChunks opts chunks db).errors = [] := by
  induction chunks generalizing db with
  | nil => rfl
  | cons c cs ih =>
      simp only [processChunks]
      have hinv := processBatch_db_inv opts c db
      have h1 := processBatch_no_errors opts hskip c db
        (hgames c (List.mem_cons_self _ _)) hfail
      have h2 := ih (processBatch opts c db).db
        (fun c' hc' r' hr' => by
          rw [findGame_eq_of_games_eq hinv.1]
          exact hgames c' (List.mem_cons_of_mem _ hc') r' hr')
        (hinv.2.trans hfail)
      simp [h1, h2]

theorem validateBatchGo_allValid {now : Int} {rs : List LotteryResultData}
    (h : ∀ r ∈ rs, (validateLotteryResult now r).isValid = true) :
    (validateBatchGo now rs).1 = rs.map cleanLotteryResult ∧
      (validateBatchGo now rs).2.1 = [] := by
  induction rs with
  | nil => exact ⟨rfl, rfl⟩
  | cons r rs ih =>
      obtain ⟨h1, h2⟩ := ih (fun r' hr' => h r' (List.mem_cons_of_mem _ hr'))
      have hr := h r (List.mem_cons_self _ _)
      simp only [validateBatchGo, List.map_cons, hr, if_true]
      exact ⟨by rw [h1], h2⟩

/-- C2 (amended): the success flag is true exactly when the cumulative
errors list is empty, and a run whose records all pass validation, whose
games are all present in the store, and whose store never fails a create
— so that its only rejections are skipped duplicates — returns
`success = true`.  (Validation failures alone make `success` false,
because they contribute a summary error line; see the counterexample.) -/
theorem import_success (now : Int) (results : List LotteryResultData) (db : Db) :
    ((importLotteryResults now results DEFAULT_OPTIONS db).1.success = true ↔
      (importLotteryResults now results DEFAULT_OPTIONS db).1.errors = []) ∧
    ((∀ r ∈ results, (validateLotteryResult now r).isValid = true) →
      (∀ r ∈ results, (db.findGame (jsTrim r.gameName)).isSome = true) →
      db.failingCreates = [] →
      (importLotteryResults now results DEFAULT_OPTIONS db).1.success = true) := by
  constructor
  · have hse : (importLotteryResults now results DEFAULT_OPTIONS db).1.success =
        (importLotteryResults now results DEFAULT_OPTIONS db).1.errors.isEmpty := rfl
    rw [hse, List.isEmpty_iff]
  · intro hval hgames hfail
    obtain ⟨hv1, hv2⟩ := validateBatchGo_allValid hval
    have herr : (importLotteryResults now results DEFAULT_OPTIONS db).1.errors = [] := by
      simp only [importLotteryResults, validateLotteryResults, DEFAULT_OPTIONS,
        Bool.true_and, if_true]
      simp only [hv2, List.length_nil, gt_iff_lt, lt_self_iff_false, decide_False,
        Bool.false_eq_true, if_false, List.nil_append]
      apply processChunks_no_errors _ rfl _ db ?_ hfail
      intro c hc r hr
      have hrmem : r ∈ (validateBatchGo now results).1 := mem_chunksOf hc hr
      rw [hv1] at hrmem
      obtain ⟨r0, hr0, rfl⟩ := List.mem_map.mp hrmem
      exact hgames r0 hr0
    have hse : (importLotteryResults now results DEFAULT_OPTIONS db).1.success =
        (importLotteryResults now results DEFAULT_OPTIONS db).1.errors.isEmpty := rfl
    rw [hse, herr]
    rfl

/-- A store holding only the 6/42 game row. -/
def dbOneGame : Db := ⟨[⟨1, "6/42"⟩], [], []⟩

/-- Counterexample to C1 as stated: a batch with one valid 6/42 record
against a store with no game rows yields `imported = skipped =
details.invalid = 0` but `details.total = 1` — the record is accounted
for only by its reference error. -/
theorem import_accounting_cx :
    (importLotteryResults 1700000000000 [rec642] DEFAULT_OPTIONS ⟨[], [], []⟩).1.imported +
        (importLotteryResults 1700000000000 [rec642] DEFAULT_OPTIONS ⟨[], [], []⟩).1.skipped +
        (importLotteryResults 1700000000000 [rec642] DEFAULT_OPTIONS
          ⟨[], [], []⟩).1.details.invalid ≠
      (importLotteryResults 1700000000000 [rec642] DEFAULT_OPTIONS
        ⟨[], [], []⟩).1.details.total ∧
    (importLotteryResults 1700000000000 [rec642] DEFAULT_OPTIONS ⟨[], [], []⟩).1.errors =
      [gameNotFoundErr "6/42"] := by
  decide

/-- Witness for the amended C2: importing the same valid record twice
into a store holding the game succeeds (`imported = 1, skipped = 1`),
with duplicates alone never making the run unsuccessful. -/
theorem import_success_witness :
    (∀ r ∈ [rec642, rec642], (validateLotteryResult 1700000000000 r).isValid = true) ∧
      (∀ r ∈ [rec642, rec642],
        (dbOneGame.findGame (jsTrim r.gameName)).isSome = true) ∧
      dbOneGame.failingCreates = [] ∧
      (importLotteryResults 1700000000000 [rec642, rec642] DEFAULT_OPTIONS
        dbOneGame).1.success = true :=
  ⟨by decide, by decide, rfl,
    (import_success 1700000000000 [rec642, rec642] dbOneGame).2
      (by decide) (by decide) rfl⟩

/-- Scenario A of the spec: a 6/42 record with only five numbers. -/
def recShort : LotteryResultData :=
  ⟨"6/42", some 1700000000000, [1, 2, 3, 4, 5], some 6000000⟩

/-- Counterexample to the second half of C2 as stated: a run whose only
rejection is a validation failure returns `success = false`, because the
invalid records contribute the summary error line. -/
theorem import_success_cx :
    (validateLotteryResult 1700000000000 recShort).isValid = false ∧
      (importLotteryResults 1700000000000 [recShort] DEFAULT_OPTIONS
        dbOneGame).1.errors = [invalidSummaryErr 1] ∧
      (importLotteryResults 1700000000000 [recShort] DEFAULT_OPTIONS
        dbOneGame).1.imported = 0 ∧
      (importLotteryResults 1700000000000 [recShort] DEFAULT_OPTIONS
        dbOneGame).1.skipped = 0 ∧
      (importLotteryResults 1700000000000 [recShort] DEFAULT_OPTIONS
        dbOneGame).1.success = false := by
  decide
